import Mathlib

/-!
Verification of `port_scanner.py` (999Cypher/port-Scanner).

The file embeds the three engine functions of `src/port_scanner.py` —
`scan_port`, `parse_port_range`, `scan_ports` — as Lean definitions and
proves or refutes the specification claims about them.

Modelling conventions for the effectful parts:
* The outcome of the operating-system level resolution/connect attempt of
  `sock.connect_ex((host, port))` is abstracted into a `ConnectOutcome`
  parameter: either the C-level connect returned an error code
  (`ConnectOutcome.ok code`, `0` meaning success), or the call raised
  `socket.gaierror` (name-resolution failure), or it raised another
  `socket.error` (e.g. `socket.timeout`).
* `socket.getservbyport(port)` is abstracted into an `Option String`
  parameter: `some name` when the services database resolves the port,
  `none` when the lookup raises.
* Python exceptions that escape a function are modelled with `Except`:
  `settimeout` raises `ValueError` for a negative timeout, and
  `connect_ex` raises `OverflowError` for a port above 65535
  (`getsockaddrarg: port must be 0-65535`).  `socket.socket` itself is
  assumed to succeed.
* The trace fields `socketsOpened`, `socketClosed` and
  `bannerReadAttempted` record the effects of one `scan_port` call: the
  source opens one socket, calls `sock.close()` only on the line after a
  normally-returning `connect_ex`, and contains no `recv` call at all.
* The nondeterministic completion order of `as_completed` in `scan_ports`
  is an explicit `order` parameter; theorems quantify over every
  permutation of the submitted ports.
* Python `int(...)` is modelled for ASCII strings: optional sign and a
  nonempty run of decimal digits (underscore separators and non-ASCII
  digits are not modelled; no claim depends on them).
-/

/-- Exceptions that can escape the embedded functions. -/
inductive PyErr where
  | valueError
  | overflowError
deriving DecidableEq

/-- Outcome of the resolution/connect attempt made by `sock.connect_ex`. -/
inductive ConnectOutcome where
  /-- `connect_ex` returned normally with this C-level error code
  (`0` = connection accepted). -/
  | ok (code : Int)
  /-- `connect_ex` raised `socket.gaierror` (name resolution failed). -/
  | gaierror
  /-- `connect_ex` raised another `socket.error` (e.g. `socket.timeout`). -/
  | sockError
deriving DecidableEq

/-- The observable behaviour of one `scan_port` invocation: its returned
value (or escaped exception) plus a trace of its socket effects. -/
structure ProbeTrace where
  result : Except PyErr (Nat × Bool × String)
  socketsOpened : Nat
  socketClosed : Bool
  bannerReadAttempted : Bool

/-- Embedding of `scan_port` (src/port_scanner.py lines 27-56).

```
sock = socket.socket(socket.AF_INET, socket.SOCK_STREAM)
sock.settimeout(timeout)            -- ValueError if timeout < 0
result = sock.connect_ex((host, port))
sock.close()
if result == 0:
    try: service = socket.getservbyport(port)
    except: service = "unknown"
    return (port, True, service)
else:
    return (port, False, "")
except socket.gaierror: return (port, False, "")
except socket.error:    return (port, False, "")
```

Only `socket.gaierror` and `socket.error` are caught; `ValueError` from
`settimeout` and `OverflowError` from an out-of-range port propagate, and
on every exceptional path `sock.close()` (which the source places after
`connect_ex`, not in a `finally`) is skipped.  Inside `connect_ex`,
address resolution happens before the port-range check, so a resolution
failure surfaces even for an out-of-range port. -/
def scan_port (port : Nat) (timeout : ℚ) (conn : ConnectOutcome)
    (serv : Option String) : ProbeTrace :=
  if timeout < 0 then
    ⟨Except.error PyErr.valueError, 1, false, false⟩
  else
    match conn with
    | ConnectOutcome.gaierror => ⟨Except.ok (port, false, ""), 1, false, false⟩
    | ConnectOutcome.sockError =>
        if 65535 < port then ⟨Except.error PyErr.overflowError, 1, false, false⟩
        else ⟨Except.ok (port, false, ""), 1, false, false⟩
    | ConnectOutcome.ok code =>
        if 65535 < port then ⟨Except.error PyErr.overflowError, 1, false, false⟩
        else if code = 0 then
          ⟨Except.ok (port, true, serv.getD "unknown"), 1, true, false⟩
        else ⟨Except.ok (port, false, ""), 1, true, false⟩

/-- Python whitespace stripped by `str.strip()` (ASCII part). -/
def isPySpace (c : Char) : Bool :=
  c = ' ' ∨ c = '\t' ∨ c = '\n' ∨ c = '\r' ∨ c = '\x0b' ∨ c = '\x0c'

/-- `str.strip()` on a character list. -/
def pyStrip (cs : List Char) : List Char :=
  ((cs.dropWhile isPySpace).reverse.dropWhile isPySpace).reverse

/-- Python `str.split(sep)` for a one-character separator, with Python
semantics: splitting the empty list gives one empty piece, and a lone
separator gives two empty pieces. -/
def splitOnChar (sep : Char) : List Char → List (List Char)
  | [] => [[]]
  | c :: cs =>
      if c = sep then [] :: splitOnChar sep cs
      else
        match splitOnChar sep cs with
        | [] => [[c]]
        | t :: ts => (c :: t) :: ts

/-- Value of a nonempty all-digit character list, else `none`. -/
def digitsVal (cs : List Char) : Option Nat :=
  if cs.isEmpty then none
  else if cs.all Char.isDigit then
    some (cs.foldl (fun a c => 10 * a + (c.toNat - 48)) 0)
  else none

/-- Python `int(s)`: strip whitespace, optional sign, decimal digits. -/
def pyInt (cs0 : List Char) : Option Int :=
  let cs := pyStrip cs0
  match cs with
  | '+' :: rest => (digitsVal rest).map Int.ofNat
  | '-' :: rest => (digitsVal rest).map (fun n => -(n : Int))
  | rest => (digitsVal rest).map Int.ofNat

/-- Python `range(start, stop)` as a list. -/
def pyRange (start stop : Nat) : List Nat :=
  (List.range (stop - start)).map (fun i => start + i)

/-- Insert `x` into a strictly ascending duplicate-free list, keeping it
strictly ascending and duplicate-free.  Folded over the accumulated port
list this computes Python's `sorted(list(set(ports)))`. -/
def insertUnique (x : Nat) : List Nat → List Nat
  | [] => [x]
  | y :: ys =>
      if x = y then y :: ys
      else if y < x then y :: insertUnique x ys
      else x :: y :: ys

/-- Python `sorted(list(set(l)))`: the distinct elements of `l` in
ascending order. -/
def sortedUnique (l : List Nat) : List Nat :=
  l.foldl (fun acc x => insertUnique x acc) []

/-- One iteration of the token loop of `parse_port_range`
(src/port_scanner.py lines 74-97).  The accumulator carries the `ports`
list and the number of warnings printed so far.  `Except.error ()` models
the uncaught `ValueError` raised by `start, end = part.split('-')` when
the token holds more than one hyphen — that unpacking sits outside the
`try` block. -/
def parseToken (acc : List Nat × Nat) (raw : List Char) :
    Except Unit (List Nat × Nat) :=
  let part := pyStrip raw
  if part.contains '-' then
    match splitOnChar '-' part with
    | [a, b] =>
        match pyInt a, pyInt b with
        | some s, some e =>
            if s ≤ e ∧ 1 ≤ s ∧ s ≤ 65535 ∧ 1 ≤ e ∧ e ≤ 65535 then
              Except.ok (acc.1 ++ pyRange s.toNat (e.toNat + 1), acc.2)
            else Except.ok (acc.1, acc.2 + 1)
        | _, _ => Except.ok (acc.1, acc.2 + 1)
    | _ => Except.error ()
  else
    match pyInt part with
    | some p =>
        if 1 ≤ p ∧ p ≤ 65535 then Except.ok (acc.1 ++ [p.toNat], acc.2)
        else Except.ok (acc.1, acc.2 + 1)
    | none => Except.ok (acc.1, acc.2 + 1)

/-- The token loop of `parse_port_range`, stopping at the first uncaught
exception. -/
def parseTokens (acc : List Nat × Nat) :
    List (List Char) → Except Unit (List Nat × Nat)
  | [] => Except.ok acc
  | p :: ps =>
      match parseToken acc p with
      | Except.error e => Except.error e
      | Except.ok acc2 => parseTokens acc2 ps

/-- Embedding of `parse_port_range` (src/port_scanner.py lines 59-99).
Returns the final `sorted(list(set(ports)))` together with the number of
`Invalid port ...` warnings printed, or `Except.error ()` when the
function raises. -/
def parse_port_range (s : String) : Except Unit (List Nat × Nat) :=
  match parseTokens ([], 0) (splitOnChar ',' s.data) with
  | Except.error e => Except.error e
  | Except.ok (ports, w) => Except.ok (sortedUnique ports, w)

/-- Ordering of probe results by port number, the key
`lambda x: x[0]` of the final `sorted` in `scan_ports`. -/
def portLe (a b : Nat × Bool × String) : Prop := a.1 ≤ b.1

instance : DecidableRel portLe := fun a b => Nat.decLe a.1 b.1

instance : IsTotal (Nat × Bool × String) portLe :=
  ⟨fun a b => Nat.le_total a.1 b.1⟩

instance : IsTrans (Nat × Bool × String) portLe :=
  ⟨fun _ _ _ h1 h2 => Nat.le_trans h1 h2⟩

/-- Python `sorted(results, key=lambda x: x[0])`. -/
def sortByPort (l : List (Nat × Bool × String)) : List (Nat × Bool × String) :=
  l.insertionSort portLe

/-- The result-collection loop of `scan_ports`: consume the probe results
in completion order, re-raising (`future.result()`) the exception of any
probe that raised. -/
def collectResults (t : ℚ) (conn : Nat → ConnectOutcome)
    (serv : Nat → Option String) :
    List Nat → Except PyErr (List (Nat × Bool × String))
  | [] => Except.ok []
  | p :: rest =>
      match (scan_port p t (conn p) (serv p)).result with
      | Except.error e => Except.error e
      | Except.ok r =>
          match collectResults t conn serv rest with
          | Except.error e => Except.error e
          | Except.ok rs => Except.ok (r :: rs)

/-- Embedding of `scan_ports` (src/port_scanner.py lines 102-135).
`ThreadPoolExecutor(max_workers=workers)` raises `ValueError` when
`workers < 1`, before any probe is submitted.  Otherwise one future is
submitted per entry of `ports`; `as_completed` yields them in the
nondeterministic completion order `order` (a permutation of `ports`);
each `future.result()` re-raises a probe's exception; finally the
collected results are sorted ascending by port.  The Rich progress bar is
presentation only and has no effect on the result. -/
def scan_ports (ports : List Nat) (t : ℚ) (workers : Int)
    (conn : Nat → ConnectOutcome) (serv : Nat → Option String)
    (order : List Nat) : Except PyErr (List (Nat × Bool × String)) :=
  let _progressTotal := ports.length
  if workers < 1 then Except.error PyErr.valueError
  else
    match collectResults t conn serv order with
    | Except.error e => Except.error e
    | Except.ok rs => Except.ok (sortByPort rs)

example : parse_port_range "80,abc,443" = Except.ok ([80, 443], 1) := by rfl
example : parse_port_range "1-5" = Except.ok ([1, 2, 3, 4, 5], 0) := by rfl
example : parse_port_range "5-1" = Except.ok ([], 1) := by rfl
example : parse_port_range "1-2-3" = Except.error () := by rfl
example : parse_port_range "22,80,443" = Except.ok ([22, 80, 443], 0) := by rfl
example : parse_port_range " 80 , 443" = Except.ok ([80, 443], 0) := by rfl
example : parse_port_range "" = Except.ok ([], 1) := by rfl
example :
    scan_ports [3, 1, 2] 1 2
      (fun p => if p = 1 then ConnectOutcome.gaierror
                else if p = 2 then ConnectOutcome.ok 0 else ConnectOutcome.ok 111)
      (fun _ => some "x") [2, 3, 1] =
    Except.ok [(1, false, ""), (2, true, "x"), (3, false, "")] := by rfl

/-! ### Lemmas about the parser helpers -/

theorem splitOnChar_ne_nil (sep : Char) (cs : List Char) :
    splitOnChar sep cs ≠ [] := by
  cases cs with
  | nil => simp [splitOnChar]
  | cons c cs =>
      unfold splitOnChar
      by_cases h : c = sep
      · simp [h]
      · cases hs : splitOnChar sep cs <;> simp [h, hs]

theorem splitOnChar_length (sep : Char) :
    ∀ cs : List Char, (splitOnChar sep cs).length = cs.count sep + 1
  | [] => by simp [splitOnChar]
  | c :: cs => by
      unfold splitOnChar
      by_cases h : c = sep
      · rw [if_pos h]
        have hl := splitOnChar_length sep cs
        have hc : (c :: cs).count sep = cs.count sep + 1 := by
          simp [List.count_cons, h]
        simp only [List.length_cons, hl, hc]
      · rw [if_neg h]
        cases hs : splitOnChar sep cs with
        | nil => exact absurd hs (splitOnChar_ne_nil sep cs)
        | cons t ts =>
            have hl := splitOnChar_length sep cs
            rw [hs] at hl
            have hc : (c :: cs).count sep = cs.count sep := by
              simp [List.count_cons, h, Ne.symm h]
            simp only [List.length_cons] at hl ⊢
            rw [hc]
            omega

theorem parseToken_ok (acc : List Nat × Nat) (raw : List Char)
    (h : (pyStrip raw).count '-' ≤ 1) :
    ∃ acc2, parseToken acc raw = Except.ok acc2 := by
  unfold parseToken
  by_cases hc : (pyStrip raw).contains '-'
  · have hmem : '-' ∈ pyStrip raw := by
      simpa using hc
    have hpos : 0 < (pyStrip raw).count '-' := List.count_pos_iff.mpr hmem
    have h1 : (pyStrip raw).count '-' = 1 := by omega
    have hlen : (splitOnChar '-' (pyStrip raw)).length = 2 := by
      rw [splitOnChar_length, h1]
    cases hs : splitOnChar '-' (pyStrip raw) with
    | nil => rw [hs] at hlen; simp at hlen
    | cons a l2 =>
        cases l2 with
        | nil => rw [hs] at hlen; simp at hlen
        | cons b l3 =>
            cases l3 with
            | nil =>
                simp only [hc, if_true, hs]
                cases hpa : pyInt a with
                | none => cases hpb : pyInt b <;> exact ⟨_, rfl⟩
                | some s =>
                    cases hpb : pyInt b with
                    | none => exact ⟨_, rfl⟩
                    | some e =>
                        by_cases hbd :
                          s ≤ e ∧ 1 ≤ s ∧ s ≤ 65535 ∧ 1 ≤ e ∧ e ≤ 65535
                        · exact ⟨(acc.1 ++ pyRange s.toNat (e.toNat + 1), acc.2),
                            by simp [hbd]⟩
                        · exact ⟨(acc.1, acc.2 + 1), by simp [hbd]⟩
            | cons d l4 => rw [hs] at hlen; simp at hlen
  · simp only [hc, Bool.false_eq_true, if_false]
    cases hpi : pyInt (pyStrip raw) with
    | none => exact ⟨_, rfl⟩
    | some p =>
        by_cases hbd : 1 ≤ p ∧ p ≤ 65535
        · exact ⟨(acc.1 ++ [p.toNat], acc.2), by simp [hbd]⟩
        · exact ⟨(acc.1, acc.2 + 1), by simp [hbd]⟩

theorem parseTokens_ok :
    ∀ (toks : List (List Char)) (acc : List Nat × Nat),
      (∀ p ∈ toks, (pyStrip p).count '-' ≤ 1) →
      ∃ acc2, parseTokens acc toks = Except.ok acc2
  | [], acc, _ => ⟨acc, rfl⟩
  | p :: ps, acc, h => by
      obtain ⟨acc2, h2⟩ := parseToken_ok acc p (h p (by simp))
      unfold parseTokens
      rw [h2]
      exact parseTokens_ok ps acc2 (fun q hq => h q (by simp [hq]))

theorem mem_insertUnique (x a : Nat) :
    ∀ l : List Nat, a ∈ insertUnique x l ↔ a = x ∨ a ∈ l
  | [] => by simp [insertUnique]
  | y :: ys => by
      unfold insertUnique
      by_cases h1 : x = y
      · rw [if_pos h1]
        constructor
        · exact fun hmem2 => Or.inr hmem2
        · intro hmem2
          rcases hmem2 with h3 | h3
          · rw [h3, h1]
            exact List.mem_cons_self y ys
          · exact h3
      · by_cases h2 : y < x
        · rw [if_neg h1, if_pos h2]
          simp only [List.mem_cons, mem_insertUnique x a ys]
          tauto
        · rw [if_neg h1, if_neg h2]
          simp only [List.mem_cons]

theorem pairwise_insertUnique (x : Nat) :
    ∀ l : List Nat, l.Pairwise (fun a b => a < b) →
      (insertUnique x l).Pairwise (fun a b => a < b)
  | [], _ => by simp [insertUnique]
  | y :: ys, h => by
      unfold insertUnique
      by_cases h1 : x = y
      · simpa [h1] using h
      · by_cases h2 : y < x
        · simp only [h1, if_false, h2, if_true]
          rw [List.pairwise_cons] at h ⊢
          refine ⟨?_, pairwise_insertUnique x ys h.2⟩
          intro b hb
          rcases (mem_insertUnique x b ys).mp hb with rfl | hb2
          · exact h2
          · exact h.1 b hb2
        · have hxy : x < y := lt_of_le_of_ne (not_lt.mp h2) h1
          simp only [h1, if_false, h2]
          rw [List.pairwise_cons]
          refine ⟨?_, h⟩
          intro b hb
          rcases List.mem_cons.mp hb with rfl | hb2
          · exact hxy
          · rw [List.pairwise_cons] at h
            exact lt_trans hxy (h.1 b hb2)

theorem pairwise_sortedUnique_aux :
    ∀ (l : List Nat) (acc : List Nat),
      acc.Pairwise (fun a b => a < b) →
      (l.foldl (fun acc x => insertUnique x acc) acc).Pairwise
        (fun a b => a < b)
  | [], _, h => h
  | x :: xs, acc, h =>
      pairwise_sortedUnique_aux xs _ (pairwise_insertUnique x acc h)

theorem pairwise_sortedUnique (l : List Nat) :
    (sortedUnique l).Pairwise (fun a b => a < b) :=
  pairwise_sortedUnique_aux l [] List.Pairwise.nil

/-! ### Lemmas about the prober and the coordinator -/

theorem scan_port_result_fst (p : Nat) (t : ℚ) (c : ConnectOutcome)
    (s : Option String) (r : Nat × Bool × String)
    (h : (scan_port p t c s).result = Except.ok r) : r.1 = p := by
  by_cases ht : t < 0
  · simp [scan_port, ht] at h
  · cases c with
    | gaierror =>
        simp [scan_port, ht] at h
        simp [← h]
    | sockError =>
        by_cases hp : 65535 < p <;> simp [scan_port, ht, hp] at h <;>
          simp [← h]
    | ok code =>
        by_cases hp : 65535 < p
        · simp [scan_port, ht, hp] at h
        · by_cases hc : code = 0 <;> simp [scan_port, ht, hp, hc] at h <;>
            simp [← h]

theorem collectResults_ok_map_fst (t : ℚ) (conn : Nat → ConnectOutcome)
    (serv : Nat → Option String) :
    ∀ (order : List Nat) (rs : List (Nat × Bool × String)),
      collectResults t conn serv order = Except.ok rs →
      rs.map Prod.fst = order
  | [], rs, h => by
      cases h
      rfl
  | p :: rest, rs, h => by
      unfold collectResults at h
      cases hr : (scan_port p t (conn p) (serv p)).result with
      | error e => rw [hr] at h; cases h
      | ok r =>
          rw [hr] at h
          cases hc : collectResults t conn serv rest with
          | error e => rw [hc] at h; cases h
          | ok rs2 =>
              rw [hc] at h
              cases h
              have ih := collectResults_ok_map_fst t conn serv rest rs2 hc
              have hfst := scan_port_result_fst p t (conn p) (serv p) r hr
              simp [ih, hfst]

/-! ### Claims -/

/-- C1.  For every completed scan over a host, a port list, a timeout and
a worker count, the result list returned by `scan_ports` has exactly one
entry per input port: its length equals the length of the input port
list, no port appears twice, and the set of ports in the results equals
the input port set exactly — even when individual probes fail (any
completion order `order`, i.e. any permutation of the submitted ports,
and any per-port connect outcome). -/
theorem scan_ports_one_result_per_port
    (ports order : List Nat) (t : ℚ) (w : Int)
    (conn : Nat → ConnectOutcome) (serv : Nat → Option String)
    (results : List (Nat × Bool × String))
    (hperm : order.Perm ports) (hnd : ports.Nodup)
    (hok : scan_ports ports t w conn serv order = Except.ok results) :
    results.length = ports.length ∧ (results.map Prod.fst).Nodup ∧
      ∀ p, p ∈ results.map Prod.fst ↔ p ∈ ports := by
  unfold scan_ports at hok
  split at hok
  · cases hok
  · cases hc : collectResults t conn serv order with
    | error e => rw [hc] at hok; cases hok
    | ok rs =>
        rw [hc] at hok
        cases hok
        have hmap := collectResults_ok_map_fst t conn serv order rs hc
        have hsp : (sortByPort rs).Perm rs := List.perm_insertionSort portLe rs
        have hfstperm : ((sortByPort rs).map Prod.fst).Perm (rs.map Prod.fst) :=
          hsp.map Prod.fst
        rw [hmap] at hfstperm
        have hp2 : ((sortByPort rs).map Prod.fst).Perm ports :=
          hfstperm.trans hperm
        refine ⟨?_, ?_, ?_⟩
        · have h1 : ((sortByPort rs).map Prod.fst).length = ports.length :=
            hp2.length_eq
          simpa using h1
        · exact hp2.nodup_iff.mpr hnd
        · exact fun p => hp2.mem_iff

/-- Witness for C1 at a concrete scan: three ports scanned with workers
2, completion order `[2, 3, 1]`, one probe failing with `gaierror` and
one refused — every input port appears exactly once in the result. -/
theorem scan_ports_one_result_per_port_witness :
    ([(1, false, ""), (2, true, "x"), (3, false, "")] :
        List (Nat × Bool × String)).length = [3, 1, 2].length ∧
      (([(1, false, ""), (2, true, "x"), (3, false, "")] :
        List (Nat × Bool × String)).map Prod.fst).Nodup ∧
      ∀ p, p ∈ ([(1, false, ""), (2, true, "x"), (3, false, "")] :
        List (Nat × Bool × String)).map Prod.fst ↔ p ∈ [3, 1, 2] :=
  scan_ports_one_result_per_port [3, 1, 2] [2, 3, 1] 1 2
    (fun p => if p = 1 then ConnectOutcome.gaierror
              else if p = 2 then ConnectOutcome.ok 0 else ConnectOutcome.ok 111)
    (fun _ => some "x")
    [(1, false, ""), (2, true, "x"), (3, false, "")]
    (by decide) (by decide) (by rfl)

/-- C2.  For every completed scan, the result list returned by
`scan_ports` is sorted ascending by port number, whatever the completion
order of the individual probes. -/
theorem scan_ports_sorted_by_port
    (ports order : List Nat) (t : ℚ) (w : Int)
    (conn : Nat → ConnectOutcome) (serv : Nat → Option String)
    (results : List (Nat × Bool × String))
    (hok : scan_ports ports t w conn serv order = Except.ok results) :
    results.Sorted portLe := by
  unfold scan_ports at hok
  split at hok
  · cases hok
  · cases hc : collectResults t conn serv order with
    | error e => rw [hc] at hok; cases hok
    | ok rs =>
        rw [hc] at hok
        cases hok
        exact List.sorted_insertionSort portLe rs

/-- Witness for C2 at a concrete scan whose probes complete in reverse
port order: the output is nevertheless ascending. -/
theorem scan_ports_sorted_by_port_witness :
    ([(1, false, ""), (2, false, "")] :
        List (Nat × Bool × String)).Sorted portLe :=
  scan_ports_sorted_by_port [1, 2] [2, 1] 1 4
    (fun _ => ConnectOutcome.ok 7) (fun _ => none)
    [(1, false, ""), (2, false, "")] (by rfl)

/-- C3 counterexample.  The claim says `parse_port_range` never raises on
any input string, but on the token `1-2-3` the tuple unpacking
`start, end = part.split('-')` (which sits outside the `try` block)
raises an uncaught `ValueError`, aborting the whole parse. -/
theorem parse_port_range_raises_on_multi_hyphen :
    parse_port_range "1-2-3" = Except.error () ∧
      parse_port_range "80,1-2-3,443" = Except.error () := by
  constructor <;> rfl

/-- C3 amended.  For every input string whose comma-separated tokens each
contain at most one hyphen after stripping, `parse_port_range` does not
raise: each malformed token is skipped with a reported warning while
every valid token still contributes its ports; in particular
`parse("80,abc,443")` yields `[80, 443]` with one warning. -/
theorem parse_port_range_best_effort
    : (∀ s : String,
        (∀ part ∈ splitOnChar ',' s.data, (pyStrip part).count '-' ≤ 1) →
        ∃ lw, parse_port_range s = Except.ok lw) ∧
      parse_port_range "80,abc,443" = Except.ok ([80, 443], 1) := by
  refine ⟨?_, rfl⟩
  intro s h
  obtain ⟨acc2, h2⟩ := parseTokens_ok (splitOnChar ',' s.data) ([], 0) h
  obtain ⟨ports, w⟩ := acc2
  refine ⟨(sortedUnique ports, w), ?_⟩
  unfold parse_port_range
  rw [h2]

/-- Witness for C3: a string mixing a valid port, a valid range and a
malformed token parses without raising. -/
theorem parse_port_range_best_effort_witness :
    ∃ lw, parse_port_range "80,22-25,xyz" = Except.ok lw :=
  parse_port_range_best_effort.1 "80,22-25,xyz" (by decide)

/-- C4 counterexample.  The claim says `scan_port` never raises for every
host, port and timeout; but with a negative timeout `sock.settimeout`
raises `ValueError`, which is not caught by the `socket.gaierror` /
`socket.error` handlers and escapes to the caller. -/
theorem scan_port_raises_on_negative_timeout :
    (scan_port 80 (-1) (ConnectOutcome.ok 0) (some "http")).result =
      Except.error PyErr.valueError := by rfl

/-- C4 amended.  For every port in range (≤ 65535) and every nonnegative
timeout, `scan_port` never raises to its caller: it returns a result for
its port, and every connection or I/O failure (refusal, host
unreachable, name-resolution failure, timeout — any outcome other than a
connect returning 0) is captured and mapped to `open = false`. -/
theorem scan_port_never_raises_on_valid_input
    (p : Nat) (t : ℚ) (c : ConnectOutcome) (s : Option String)
    (hp : p ≤ 65535) (ht : 0 ≤ t) :
    ∃ r, (scan_port p t c s).result = Except.ok r ∧ r.1 = p ∧
      (c ≠ ConnectOutcome.ok 0 → r.2.1 = false) := by
  have ht2 : ¬t < 0 := not_lt.mpr ht
  have hp2 : ¬65535 < p := not_lt.mpr hp
  cases c with
  | gaierror =>
      exact ⟨(p, false, ""), by simp [scan_port, ht2], rfl, fun _ => rfl⟩
  | sockError =>
      exact ⟨(p, false, ""), by simp [scan_port, ht2, hp2], rfl, fun _ => rfl⟩
  | ok code =>
      by_cases hc : code = 0
      · subst hc
        exact ⟨(p, true, s.getD "unknown"), by simp [scan_port, ht2, hp2],
          rfl, fun hne => absurd rfl hne⟩
      · exact ⟨(p, false, ""), by simp [scan_port, ht2, hp2, hc], rfl,
          fun _ => rfl⟩

/-- Witness for C4: a probe whose connect raises `socket.gaierror`
returns normally with `open = false`. -/
theorem scan_port_never_raises_on_valid_input_witness :
    ∃ r, (scan_port 80 1 ConnectOutcome.gaierror none).result =
        Except.ok r ∧ r.1 = 80 ∧
      (ConnectOutcome.gaierror ≠ ConnectOutcome.ok 0 → r.2.1 = false) :=
  scan_port_never_raises_on_valid_input 80 1 ConnectOutcome.gaierror none
    (by decide) (by norm_num)

/-- C8.  For every spec string on which `parse_port_range` returns, the
returned port list is strictly ascending and duplicate-free; and
concretely `parse("22,80,443") = [22, 80, 443]`,
`parse("1-5") = [1, 2, 3, 4, 5]`, and the reversed range `"5-1"` is
rejected contributing zero ports (with a warning) rather than being
auto-swapped. -/
theorem parse_port_range_ascending_nodup
    : (∀ (s : String) (l : List Nat) (w : Nat),
        parse_port_range s = Except.ok (l, w) →
        l.Pairwise (fun a b => a < b) ∧ l.Nodup) ∧
      parse_port_range "22,80,443" = Except.ok ([22, 80, 443], 0) ∧
      parse_port_range "1-5" = Except.ok ([1, 2, 3, 4, 5], 0) ∧
      parse_port_range "5-1" = Except.ok ([], 1) := by
  refine ⟨?_, rfl, rfl, rfl⟩
  intro s l w h
  unfold parse_port_range at h
  cases ht : parseTokens ([], 0) (splitOnChar ',' s.data) with
  | error e => rw [ht] at h; cases h
  | ok acc =>
      rw [ht] at h
      obtain ⟨ports, w2⟩ := acc
      simp only [Except.ok.injEq, Prod.mk.injEq] at h
      obtain ⟨h1, h2⟩ := h
      rw [← h1]
      refine ⟨pairwise_sortedUnique ports, ?_⟩
      exact (pairwise_sortedUnique ports).imp (fun hab => Nat.ne_of_lt hab)

/-- Witness for C8: duplicated and unordered tokens still produce a
strictly ascending duplicate-free list. -/
theorem parse_port_range_ascending_nodup_witness :
    ([22, 80] : List Nat).Pairwise (fun a b => a < b) ∧
      ([22, 80] : List Nat).Nodup :=
  parse_port_range_ascending_nodup.1 "80,22,80" [22, 80] 0 (by rfl)

/-- C5 counterexample.  The claim says every invocation of `scan_port`
closes its socket before returning on every exit path; but when
`connect_ex` raises `socket.gaierror` the handler returns
`(port, False, "")` directly and the `sock.close()` call on the line
after `connect_ex` is never reached, so the function returns with the
socket still open. -/
theorem scan_port_socket_left_open_on_gaierror :
    (scan_port 80 1 ConnectOutcome.gaierror none).socketClosed = false ∧
      (scan_port 80 1 ConnectOutcome.gaierror none).result =
        Except.ok (80, false, "") := by
  constructor <;> rfl

/-- C5 amended.  Every invocation of `scan_port` opens exactly one
socket, and closes it before returning exactly when `connect_ex` returns
normally (the timeout is nonnegative, the port is in range, and the
connect attempt produced an error code rather than raising); on the
`gaierror`, `socket.error` and uncaught-exception paths the socket is
left open. -/
theorem scan_port_socket_accounting
    (p : Nat) (t : ℚ) (c : ConnectOutcome) (s : Option String) :
    (scan_port p t c s).socketsOpened = 1 ∧
      ((scan_port p t c s).socketClosed = true ↔
        0 ≤ t ∧ p ≤ 65535 ∧ ∃ code, c = ConnectOutcome.ok code) := by
  by_cases ht : t < 0
  · have ht2 : ¬0 ≤ t := not_le.mpr ht
    constructor
    · simp [scan_port, ht]
    · simp [scan_port, ht, ht2]
  · have ht2 : 0 ≤ t := not_lt.mp ht
    cases c with
    | gaierror =>
        constructor
        · simp [scan_port, ht]
        · simp [scan_port, ht]
    | sockError =>
        by_cases hp : 65535 < p <;> constructor <;> simp [scan_port, ht, hp]
    | ok code =>
        by_cases hp : 65535 < p
        · have hp2 : ¬p ≤ 65535 := not_le.mpr hp
          constructor
          · simp [scan_port, ht, hp]
          · simp [scan_port, ht, hp, hp2]
        · have hp2 : p ≤ 65535 := not_lt.mp hp
          by_cases hc : code = 0 <;> constructor <;>
            simp [scan_port, ht, hp, hc, ht2, hp2]

/-- Witness for C5 amended, on a normally-returning connect: the single
socket is closed. -/
theorem scan_port_socket_accounting_witness :
    (scan_port 443 1 (ConnectOutcome.ok 0) none).socketsOpened = 1 ∧
      ((scan_port 443 1 (ConnectOutcome.ok 0) none).socketClosed = true ↔
        (0 : ℚ) ≤ 1 ∧ 443 ≤ 65535 ∧
          ∃ code, ConnectOutcome.ok 0 = ConnectOutcome.ok code) :=
  scan_port_socket_accounting 443 1 (ConnectOutcome.ok 0) none

/-- C6 counterexample.  The claim says a timeout of zero is rejected as
fatal invalid configuration before any probe is dispatched and is never
silently accepted; but a scan with `timeout = 0` runs to completion:
`settimeout(0)` puts the socket in non-blocking mode, `connect_ex`
returns a nonzero code (e.g. `EINPROGRESS = 115`), and the port is
reported closed with no error anywhere. -/
theorem scan_with_zero_timeout_completes :
    scan_ports [80] 0 1 (fun _ => ConnectOutcome.ok 115) (fun _ => none)
      [80] = Except.ok [(80, false, "")] := by rfl

/-- C6 amended.  No pre-dispatch validation of the timeout exists: a
worker count below 1 does fail before any probe is dispatched
(`ThreadPoolExecutor` raises `ValueError`, which `main` turns into exit
code 1); a negative timeout makes every dispatched probe raise, so the
scan aborts with `ValueError` only after dispatch, when the first
completed future is consumed; and a zero timeout is silently accepted,
completing the scan with the probed ports reported closed. -/
theorem config_validation_as_implemented
    : (∀ (ports : List Nat) (t : ℚ) (conn : Nat → ConnectOutcome)
         (serv : Nat → Option String) (order : List Nat) (w : Int),
         w < 1 → scan_ports ports t w conn serv order =
           Except.error PyErr.valueError) ∧
      (∀ (ports : List Nat) (conn : Nat → ConnectOutcome)
         (serv : Nat → Option String) (w : Int) (t : ℚ) (p : Nat)
         (rest : List Nat), 1 ≤ w → t < 0 →
         scan_ports ports t w conn serv (p :: rest) =
           Except.error PyErr.valueError) ∧
      scan_ports [80] 0 1 (fun _ => ConnectOutcome.ok 115) (fun _ => none)
        [80] = Except.ok [(80, false, "")] := by
  refine ⟨?_, ?_, rfl⟩
  · intro ports t conn serv order w hw
    simp [scan_ports, hw]
  · intro ports conn serv w t p rest hw ht
    have hw2 : ¬w < 1 := not_lt.mpr hw
    simp [scan_ports, hw2, collectResults, scan_port, ht]

/-- Witness for C6 amended: a worker count of 0 fails before dispatch,
and a timeout of -1 aborts an otherwise healthy one-port scan. -/
theorem config_validation_as_implemented_witness :
    scan_ports [80] 1 0 (fun _ => ConnectOutcome.ok 0) (fun _ => none)
        [80] = Except.error PyErr.valueError ∧
      scan_ports [80] (-1) 1 (fun _ => ConnectOutcome.ok 0)
        (fun _ => none) [80] = Except.error PyErr.valueError :=
  ⟨config_validation_as_implemented.1 [80] 1 (fun _ => ConnectOutcome.ok 0)
      (fun _ => none) [80] 0 (by decide),
    config_validation_as_implemented.2.1 [80]
      (fun _ => ConnectOutcome.ok 0) (fun _ => none) 1 (-1) 80 []
      (by decide) (by norm_num)⟩

/-- C7 counterexample.  The claim says that after a successful connect
the prober attempts a bounded read of up to 1024 bytes of banner data;
but `scan_port` contains no read at all — on a successful connect it
closes the socket immediately and returns a `(port, open, service)`
triple that has no banner component. -/
theorem scan_port_no_banner_read :
    (scan_port 22 1 (ConnectOutcome.ok 0) (some "ssh")).bannerReadAttempted
        = false ∧
      (scan_port 22 1 (ConnectOutcome.ok 0) (some "ssh")).result =
        Except.ok (22, true, "ssh") := by
  constructor <;> rfl

/-- C7 amended.  A probe against a port that accepts the connection
returns `open = true` with a service label and no banner: the prober
never attempts a banner read after a successful connect (its results
carry no banner field), so a service that sends no data yields
`open = true` with no banner trivially. -/
theorem scan_port_accept_yields_open_no_banner
    (p : Nat) (t : ℚ) (s : Option String)
    (hp : p ≤ 65535) (ht : 0 ≤ t) :
    (scan_port p t (ConnectOutcome.ok 0) s).result =
        Except.ok (p, true, s.getD "unknown") ∧
      (scan_port p t (ConnectOutcome.ok 0) s).bannerReadAttempted = false := by
  have ht2 : ¬t < 0 := not_lt.mpr ht
  have hp2 : ¬65535 < p := not_lt.mpr hp
  constructor <;> simp [scan_port, ht2, hp2]

/-- Witness for C7 amended: port 22 accepting with an eager service
label. -/
theorem scan_port_accept_yields_open_no_banner_witness :
    (scan_port 22 1 (ConnectOutcome.ok 0) none).result =
        Except.ok (22, true, Option.getD none "unknown") ∧
      (scan_port 22 1 (ConnectOutcome.ok 0) none).bannerReadAttempted =
        false :=
  scan_port_accept_yields_open_no_banner 22 1 none (by decide) (by norm_num)

/-- C10.  For every probe whose result reports `open = false`, the
service field is the empty string, never `"unknown"`; the `"unknown"`
label is produced only for an open port whose number the services
database cannot resolve (the database itself has no service named
`"unknown"`, hence the hypothesis on `s`). -/
theorem empty_string_ne_unknown : ("" : String) ≠ "unknown" := by decide

theorem scan_port_service_label_discipline
    (p : Nat) (t : ℚ) (c : ConnectOutcome) (s : Option String)
    (r : Nat × Bool × String) (hs : s ≠ some "unknown")
    (hok : (scan_port p t c s).result = Except.ok r) :
    (r.2.1 = false → r.2.2 = "") ∧
      (r.2.2 = "unknown" → r.2.1 = true ∧ s = none) := by
  by_cases ht : t < 0
  · simp [scan_port, ht] at hok
  · cases c with
    | gaierror =>
        simp [scan_port, ht] at hok
        rw [← hok]
        exact ⟨fun _ => rfl, fun h => absurd h empty_string_ne_unknown⟩
    | sockError =>
        by_cases hp : 65535 < p
        · simp [scan_port, ht, hp] at hok
        · simp [scan_port, ht, hp] at hok
          rw [← hok]
          exact ⟨fun _ => rfl, fun h => absurd h empty_string_ne_unknown⟩
    | ok code =>
        by_cases hp : 65535 < p
        · simp [scan_port, ht, hp] at hok
        · by_cases hc : code = 0
          · simp [scan_port, ht, hp, hc] at hok
            rw [← hok]
            cases s with
            | none =>
                refine ⟨fun h => ?_, fun _ => ⟨rfl, rfl⟩⟩
                exact nomatch h
            | some name =>
                constructor
                · intro h
                  exact nomatch h
                · intro h
                  have h2 : (some name : Option String) = some "unknown" := by
                    rw [show name = "unknown" from h]
                  exact absurd h2 hs
          · simp [scan_port, ht, hp, hc] at hok
            rw [← hok]
            exact ⟨fun _ => rfl, fun h => absurd h empty_string_ne_unknown⟩

/-- Witness for C10 at two concrete probes: a refused connect yields a
closed result whose service is the empty string, and an open port the
services database cannot resolve carries `open = true` alongside its
`"unknown"` label. -/
theorem scan_port_service_label_discipline_witness :
    (scan_port 80 1 (ConnectOutcome.ok 7) (some "http")).result =
        Except.ok (80, false, "") ∧
      ((80, false, "") : Nat × Bool × String).2.2 = "" ∧
      ((22, true, "unknown") : Nat × Bool × String).2.1 = true :=
  ⟨by rfl,
    (scan_port_service_label_discipline 80 1 (ConnectOutcome.ok 7)
      (some "http") (80, false, "") (by decide) (by rfl)).1 (by rfl),
    ((scan_port_service_label_discipline 22 1 (ConnectOutcome.ok 0) none
      (22, true, "unknown") (by decide) (by rfl)).2 (by rfl)).1⟩
